import Mathlib

/-!
Shallow embedding of the time-slot scheduling subsystem of the
doctor-booking backend (`src/controllers/doctorController.js`).

Modelling decisions, each traceable to the JavaScript source:

* Time-of-day values are kept as the raw strings the code stores
  (`startTime`, `endTime`).  The overlap checks in `addTimeSlots`
  (lines 227-241) and `updateTimeSlot` (lines 434-444) compare these
  strings with the JavaScript relational operators `<`, `<=`, `>`, `>=`,
  which on strings compare code units lexicographically; `jsLt`/`jsLe`/
  `jsGt`/`jsGe` reproduce exactly that order (`a <= b` is `¬ (b < a)`,
  `a >= b` is `¬ (a < b)`, `a > b` is `b < a`).
* The start-before-end and duration checks go through
  `new Date('1970-01-01T' + t + ':00')` (lines 194-207, 424-432).  For a
  string accepted by the time regex, V8 (Node's engine) parses both the
  two-digit-hour ISO form and the single-digit-hour legacy form as a
  valid local time at hour:minute of 1970-01-01, so comparing or
  subtracting the two `Date`s is comparing or subtracting
  `hour * 60 + minute`; `toMinutes` is that reading.
* Mongoose/HTTP plumbing (auth role check, `Doctor.findOne`, `save`) is
  stripped to a pure state-passing function: the stored collection is a
  `List TimeSlot`, the only write happens at the single `doctor.save()`
  call on the success path, and every early `return res.status(4xx)` or
  thrown error becomes `Except.error` with the source's message, leaving
  the state unchanged.
* Subdocument ids (`_id`, assigned by Mongoose at insertion) are modelled
  as `Nat`s handed out sequentially from a `nextId` counter.
-/

/-- One stored availability slot (a subdocument of
`doctorSchema.availableSlots`). -/
structure TimeSlot where
  id : Nat
  day : String
  startTime : String
  endTime : String
  isAvailable : Bool
deriving DecidableEq, Repr, Inhabited

/-- One element of the `slots` array in the `POST /api/doctor/slots`
request body; `isAvailable` may be absent (`undefined`). -/
structure SlotInput where
  day : String
  startTime : String
  endTime : String
  isAvailable : Option Bool
deriving DecidableEq, Repr, Inhabited

/-- A slot as returned by the validation `map` in `addTimeSlots`
(lines 209-214): no id yet, `isAvailable` defaulted. -/
structure VSlot where
  day : String
  startTime : String
  endTime : String
  isAvailable : Bool
deriving DecidableEq, Repr, Inhabited

/-- JavaScript `a < b` on strings: lexicographic comparison of the
code-unit sequences. -/
def jsLtL : List Char → List Char → Bool
  | _, [] => false
  | [], _ :: _ => true
  | a :: as, b :: bs =>
    if a.toNat < b.toNat then true
    else if b.toNat < a.toNat then false
    else jsLtL as bs

def jsLt (a b : String) : Bool := jsLtL a.data b.data

/-- JavaScript `a <= b` on strings is `¬ (b < a)`. -/
def jsLe (a b : String) : Bool := !(jsLt b a)

/-- JavaScript `a > b` on strings is `b < a`. -/
def jsGt (a b : String) : Bool := jsLt b a

/-- JavaScript `a >= b` on strings is `¬ (a < b)`. -/
def jsGe (a b : String) : Bool := !(jsLt a b)

/-- A character inside an inclusive character-class range. -/
def charBetween (lo c hi : Char) : Bool :=
  decide (lo.toNat ≤ c.toNat) && decide (c.toNat ≤ hi.toNat)

/-- The anchored regex `^([0-1]?[0-9]|2[0-3]):[0-5][0-9]$` from lines
189 and 396/408: hour is one digit, `0`/`1` followed by a digit, or `2`
followed by `0`-`3`; minutes are `[0-5][0-9]`. -/
def timeRegexMatch (s : String) : Bool :=
  match s.data with
  | [h, ':', m1, m2] =>
      charBetween '0' h '9' && charBetween '0' m1 '5' && charBetween '0' m2 '9'
  | [h1, h2, ':', m1, m2] =>
      ((charBetween '0' h1 '1' && charBetween '0' h2 '9') ||
       (h1 == '2' && charBetween '0' h2 '3')) &&
      charBetween '0' m1 '5' && charBetween '0' m2 '9'
  | _ => false

/-- Numeric value of a digit character. -/
def charVal (c : Char) : Nat := c.toNat - 48

/-- Minutes since midnight denoted by a regex-valid time string: the
reading V8 gives `new Date('1970-01-01T' + t + ':00')` for both the
`H:MM` and `HH:MM` shapes (both parse as local hour:minute, so `Date`
comparison and subtraction reduce to comparing these values).  Other
shapes never reach the `Date` conversion (the regex rejects them
first). -/
def toMinutes (s : String) : Nat :=
  match s.data with
  | [h, ':', m1, m2] => charVal h * 60 + charVal m1 * 10 + charVal m2
  | [h1, h2, ':', m1, m2] =>
      (charVal h1 * 10 + charVal h2) * 60 + charVal m1 * 10 + charVal m2
  | _ => 0

/-- The `validDays` array from line 183. -/
def validDays : List String :=
  ["Monday", "Tuesday", "Wednesday", "Thursday", "Friday", "Saturday", "Sunday"]

/-- The per-slot validation callback of `slots.map` in `addTimeSlots`
(lines 176-215); a thrown `Error` becomes `Except.error` with the same
message. -/
def validateSlot (s : SlotInput) : Except String VSlot :=
  if s.day = "" ∨ s.startTime = "" ∨ s.endTime = "" then
    .error "Each slot must have day, startTime, and endTime"
  else if ¬ (s.day ∈ validDays) then
    .error ("Invalid day: " ++ s.day ++ ". Must be one of: Monday, Tuesday, Wednesday, Thursday, Friday, Saturday, Sunday")
  else if ¬ (timeRegexMatch s.startTime = true ∧ timeRegexMatch s.endTime = true) then
    .error "Time must be in HH:MM format (24-hour)"
  else if toMinutes s.endTime ≤ toMinutes s.startTime then
    .error "Start time must be before end time"
  else if toMinutes s.endTime - toMinutes s.startTime < 30 then
    .error "Minimum slot duration is 30 minutes"
  else
    .ok ⟨s.day, s.startTime, s.endTime, s.isAvailable ≠ some false⟩

/-- `slots.map(validate)` with throw-on-first-failure semantics. -/
def validateAll : List SlotInput → Except String (List VSlot)
  | [] => .ok []
  | s :: rest =>
    match validateSlot s with
    | .error e => .error e
    | .ok v =>
      match validateAll rest with
      | .error e => .error e
      | .ok vs => .ok (v :: vs)

/-- The overlap test of lines 229-236 (and, with the updated slot in
place of the new one, lines 438-443): same `day`, then the three-way
disjunction over the raw time strings under JavaScript string
comparison. -/
def overlapPred (nDay nStart nEnd : String) (ex : TimeSlot) : Bool :=
  ex.day == nDay &&
  ((jsGe nStart ex.startTime && jsLt nStart ex.endTime) ||
   (jsGt nEnd ex.startTime && jsLe nEnd ex.endTime) ||
   (jsLe nStart ex.startTime && jsGe nEnd ex.endTime))

def overlapsJS (v : VSlot) (ex : TimeSlot) : Bool :=
  overlapPred v.day v.startTime v.endTime ex

/-- The `validatedSlots.forEach` of lines 228-241: for each new slot in
order, `find` the first overlapping stored slot and throw naming it. -/
def checkOverlaps : List VSlot → List TimeSlot → Option String
  | [], _ => none
  | v :: rest, st =>
    match st.find? (fun ex => overlapsJS v ex) with
    | some ex =>
        some ("Slot overlaps with existing slot: " ++ ex.day ++ " "
              ++ ex.startTime ++ "-" ++ ex.endTime)
    | none => checkOverlaps rest st

/-- Mongoose assigning `_id`s to the pushed subdocuments, modelled as
sequential numbering from `nextId`. -/
def assignIds (nextId : Nat) : List VSlot → List TimeSlot
  | [] => []
  | v :: rest => ⟨nextId, v.day, v.startTime, v.endTime, v.isAvailable⟩ :: assignIds (nextId + 1) rest

/-- `addTimeSlots` (lines 155-275) as a function from the stored
collection to the new collection: empty-batch check, per-slot
validation, overlap check against the stored slots, then
`push(...validatedSlots)` and `save`. -/
def addTimeSlots (nextId : Nat) (st : List TimeSlot) (slots : List SlotInput) :
    Except String (List TimeSlot) :=
  if slots.length = 0 then .error "Please provide at least one time slot"
  else
    match validateAll slots with
    | .error e => .error e
    | .ok vs =>
      match checkOverlaps vs st with
      | some e => .error e
      | none => .ok (st ++ assignIds nextId vs)

/-- The handler's effect on the database: the only write is the
`doctor.save()` on the success path, so on any error the stored
collection is exactly the old one. -/
def addTimeSlotsHandler (nextId : Nat) (st : List TimeSlot) (slots : List SlotInput) :
    List TimeSlot × Except String (List TimeSlot) :=
  match addTimeSlots nextId st slots with
  | .error e => (st, .error e)
  | .ok st' => (st', .ok st')

/-- The index-skipping `some` of lines 435-444: any stored slot other
than the one at `idx` that overlaps the updated slot. -/
def hasOverlapUpdate (st : List TimeSlot) (idx : Nat) (slot : TimeSlot) : Bool :=
  (List.range st.length).any (fun i =>
    i ≠ idx && overlapPred slot.day slot.startTime slot.endTime (st.getD i default))

/-- Tail of `updateTimeSlot` after the two field-copy blocks: the
`isAvailable` assignment of lines 418-420, then the conditional
revalidation of lines 422-452 (start-before-end via `Date`, overlap
against the other slots), run only when a time field was provided, and
finally the `save` (`st.set idx`). -/
def updateTimeSlotFinish (st : List TimeSlot) (idx : Nat) (slot2 : TimeSlot)
    (startTime? endTime? : Option String) (isAvailable? : Option Bool) :
    Except String (List TimeSlot) :=
  let slot3 := match isAvailable? with
    | some b => { slot2 with isAvailable := b }
    | none => slot2
  if startTime?.isSome || endTime?.isSome then
    if toMinutes slot3.endTime ≤ toMinutes slot3.startTime then
      .error "Start time must be before end time"
    else if hasOverlapUpdate st idx slot3 then
      .error "Updated slot overlaps with existing slot"
    else .ok (st.set idx slot3)
  else .ok (st.set idx slot3)

/-- The `endTime` block of lines 406-416: regex-check the provided end
time and copy it onto the slot. -/
def updateTimeSlotEnd (st : List TimeSlot) (idx : Nat) (slot1 : TimeSlot)
    (startTime? endTime? : Option String) (isAvailable? : Option Bool) :
    Except String (List TimeSlot) :=
  match endTime? with
  | some t =>
    if ¬ (timeRegexMatch t = true) then
      .error "End time must be in HH:MM format (24-hour)"
    else updateTimeSlotFinish st idx { slot1 with endTime := t } startTime? endTime? isAvailable?
  | none => updateTimeSlotFinish st idx slot1 startTime? endTime? isAvailable?

/-- `updateTimeSlot` (lines 357-477): locate the slot by id, apply the
provided fields (each time field regex-checked on its own), and when a
time field was provided re-check start-before-end and overlap against
the other slots; persist via `save` only on success. -/
def updateTimeSlot (st : List TimeSlot) (slotId : Nat)
    (startTime? endTime? : Option String) (isAvailable? : Option Bool) :
    Except String (List TimeSlot) :=
  match st.findIdx? (fun s => s.id == slotId) with
  | none => .error "Time slot not found"
  | some idx =>
    let slot0 := st.getD idx default
    match startTime? with
    | some t =>
      if ¬ (timeRegexMatch t = true) then
        .error "Start time must be in HH:MM format (24-hour)"
      else updateTimeSlotEnd st idx { slot0 with startTime := t } startTime? endTime? isAvailable?
    | none => updateTimeSlotEnd st idx slot0 startTime? endTime? isAvailable?

/-- `deleteTimeSlot` (lines 487-538): filter out the id, compare lengths
to detect absence, return the remaining count. -/
def deleteTimeSlot (st : List TimeSlot) (slotId : Nat) :
    Except String (List TimeSlot × Nat) :=
  let newSlots := st.filter (fun s => !(s.id == slotId))
  if newSlots.length = st.length then .error "Time slot not found"
  else .ok (newSlots, newSlots.length)

/-- The fields of the `Doctor` document (with its populated `userId`
user) that `getAvailableSlotsForPatients` reads. -/
structure DoctorDoc where
  approvedBy : Option Nat
  userIsActive : Bool
  availableSlots : List TimeSlot
deriving Repr, Inhabited

/-- One insertion into the `slotsByDay` object of lines 575-585: a
JavaScript object keyed by day, keys in insertion order, the slot
pushed onto the end of its day's array. -/
def pushSlot : List (String × List TimeSlot) → TimeSlot → List (String × List TimeSlot)
  | [], s => [(s.day, [s])]
  | p :: rest, s =>
    if p.1 = s.day then (p.1, p.2 ++ [s]) :: rest
    else p :: pushSlot rest s

/-- The grouping loop: fold the slots in order into the day-keyed
object. -/
def groupByDay (slots : List TimeSlot) : List (String × List TimeSlot) :=
  slots.foldl pushSlot []

/-- Reading one day's array out of the grouped object: first entry with
the key, `[]` when the key is absent. -/
def groupLookup : List (String × List TimeSlot) → String → List TimeSlot
  | [], _ => []
  | p :: rest, d => if p.1 = d then p.2 else groupLookup rest d

/-- `getAvailableSlotsForPatients` (lines 548-610): require
`approvedBy` present and the user active, filter to `isAvailable`
slots, group by day, return the grouping and the total. -/
def getAvailableSlotsForPatients (d : DoctorDoc) :
    Except String (List (String × List TimeSlot) × Nat) :=
  if ¬ d.approvedBy.isSome ∨ ¬ d.userIsActive then
    .error "Doctor is not available for appointments"
  else
    let avail := d.availableSlots.filter (fun s => s.isAvailable)
    .ok (groupByDay avail, avail.length)

/-- Chronological half-open-interval overlap of two slots, the relation
the specification states the invariant with (`A.start < B.end AND
B.start < A.end` under time-of-day comparison). -/
def chronOverlap (aStart aEnd bStart bEnd : String) : Prop :=
  toMinutes aStart < toMinutes bEnd ∧ toMinutes bStart < toMinutes aEnd

instance (a b c d : String) : Decidable (chronOverlap a b c d) := by
  unfold chronOverlap; infer_instance

/-! ## Helper lemmas -/

/-- Against an empty stored collection the overlap pass finds nothing. -/
theorem checkOverlaps_nil : ∀ (vs : List VSlot), checkOverlaps vs [] = none := by
  intro vs
  induction vs with
  | nil => rfl
  | cons v rest ih => simpa [checkOverlaps] using ih

/-- If the overlap pass is silent, no new slot overlaps any stored slot. -/
theorem checkOverlaps_none_sound : ∀ (vs : List VSlot) (st : List TimeSlot),
    checkOverlaps vs st = none → ∀ v ∈ vs, ∀ ex ∈ st, overlapsJS v ex = false := by
  intro vs
  induction vs with
  | nil => intro st _ v hv; cases hv
  | cons v rest ih =>
    intro st h w hw ex hex
    unfold checkOverlaps at h
    cases hf : st.find? (fun e => overlapsJS v e) with
    | some e => rw [hf] at h; cases h
    | none =>
      rw [hf] at h
      rcases List.mem_cons.mp hw with hw | hw
      · subst hw
        have := List.find?_eq_none.mp hf ex hex
        simpa using this
      · exact ih st h w hw ex hex

/-- Everything the validation callback guarantees about an accepted
slot. -/
theorem validateSlot_ok_props {s : SlotInput} {v : VSlot} (h : validateSlot s = .ok v) :
    v.day = s.day ∧ v.startTime = s.startTime ∧ v.endTime = s.endTime ∧
    s.day ∈ validDays ∧ timeRegexMatch s.startTime = true ∧ timeRegexMatch s.endTime = true ∧
    toMinutes s.startTime < toMinutes s.endTime ∧
    30 ≤ toMinutes s.endTime - toMinutes s.startTime := by
  unfold validateSlot at h
  split_ifs at h with h1 h2 h3 h4 h5
  injection h with h
  subst h
  exact ⟨rfl, rfl, rfl, h2, h3.1, h3.2, by omega, by omega⟩

/-- A validated batch contains only slots accepted by the callback. -/
theorem validateAll_ok_mem : ∀ {slots : List SlotInput} {vs : List VSlot},
    validateAll slots = .ok vs → ∀ v ∈ vs, ∃ s ∈ slots, validateSlot s = .ok v := by
  intro slots
  induction slots with
  | nil =>
    intro vs h v hv
    unfold validateAll at h
    injection h with h
    subst h
    cases hv
  | cons s rest ih =>
    intro vs h v hv
    unfold validateAll at h
    cases hs : validateSlot s with
    | error e => rw [hs] at h; exact Except.noConfusion h
    | ok w =>
      rw [hs] at h
      cases hr : validateAll rest with
      | error e => rw [hr] at h; exact Except.noConfusion h
      | ok ws =>
        rw [hr] at h
        injection h with h
        subst h
        rcases List.mem_cons.mp hv with hv | hv
        · exact ⟨s, List.mem_cons_self .., hv ▸ hs⟩
        · obtain ⟨t, ht, hok⟩ := ih hr v hv
          exact ⟨t, List.mem_cons_of_mem _ ht, hok⟩

/-- Slots produced by id assignment carry exactly the validated fields. -/
theorem assignIds_mem : ∀ (n : Nat) (vs : List VSlot) (t : TimeSlot), t ∈ assignIds n vs →
    ∃ v ∈ vs, t.day = v.day ∧ t.startTime = v.startTime ∧
      t.endTime = v.endTime ∧ t.isAvailable = v.isAvailable := by
  intro n vs
  induction vs generalizing n with
  | nil => intro t ht; cases ht
  | cons v rest ih =>
    intro t ht
    rcases List.mem_cons.mp ht with h | h
    · subst h; exact ⟨v, List.mem_cons_self .., rfl, rfl, rfl, rfl⟩
    · obtain ⟨w, hw, hp⟩ := ih (n + 1) t h
      exact ⟨w, List.mem_cons_of_mem _ hw, hp⟩

/-- If one slot of the batch is rejected and every slot before it is
accepted, the whole validation pass reports exactly that rejection. -/
theorem validateAll_append_error : ∀ (pre : List SlotInput) (bad : SlotInput)
    (rest : List SlotInput) (e : String),
    (∀ s ∈ pre, ∃ v, validateSlot s = .ok v) → validateSlot bad = .error e →
    validateAll (pre ++ bad :: rest) = .error e := by
  intro pre
  induction pre with
  | nil =>
    intro bad rest e _ hbad
    simp only [List.nil_append]
    unfold validateAll
    rw [hbad]
  | cons s pre ih =>
    intro bad rest e hpre hbad
    obtain ⟨v, hv⟩ := hpre s (List.mem_cons_self ..)
    simp only [List.cons_append]
    unfold validateAll
    rw [hv, ih bad rest e (fun x hx => hpre x (List.mem_cons_of_mem _ hx)) hbad]

/-! ## C1 -/

/-- C1, counterexample: `addSlots` on an empty collection accepting the
batch `[Monday 09:00-10:00, Monday 09:30-10:30]` whole — the two stored
slots share a day and their `[startTime, endTime)` intervals overlap
chronologically, so the no-overlap invariant does not hold after this
mutation. -/
theorem addSlots_overlap_invariant_cex :
    addTimeSlots 0 [] [⟨"Monday", "09:00", "10:00", none⟩, ⟨"Monday", "09:30", "10:30", none⟩] =
      .ok [⟨0, "Monday", "09:00", "10:00", true⟩, ⟨1, "Monday", "09:30", "10:30", true⟩] ∧
    chronOverlap "09:00" "10:00" "09:30" "10:30" :=
  ⟨rfl, by decide⟩

/-- C1 (amended): what each successful `addSlots` call actually
guarantees — every slot of the accepted batch is overlap-free, under
the code's string comparison, against every slot that was already
stored before the call (batch members are not checked against each
other). -/
theorem addSlots_new_old_disjoint (nextId : Nat) (st st' : List TimeSlot)
    (slots : List SlotInput) (h : addTimeSlots nextId st slots = .ok st') :
    ∃ vs, validateAll slots = .ok vs ∧ st' = st ++ assignIds nextId vs ∧
      ∀ v ∈ vs, ∀ ex ∈ st, overlapsJS v ex = false := by
  by_cases hlen : slots.length = 0
  · unfold addTimeSlots at h
    rw [if_pos hlen] at h
    exact Except.noConfusion h
  · unfold addTimeSlots at h
    rw [if_neg hlen] at h
    cases hv : validateAll slots with
    | error e => rw [hv] at h; exact Except.noConfusion h
    | ok vs =>
      rw [hv] at h
      have h2 : (match checkOverlaps vs st with
        | some e => (Except.error e : Except String (List TimeSlot))
        | none => .ok (st ++ assignIds nextId vs)) = .ok st' := h
      cases hc : checkOverlaps vs st with
      | some e => rw [hc] at h2; exact Except.noConfusion h2
      | none =>
        rw [hc] at h2
        injection h2 with h2
        exact ⟨vs, rfl, h2.symm, checkOverlaps_none_sound vs st hc⟩

/-- Witness for the amended C1 theorem at a concrete accepted call. -/
theorem addSlots_new_old_disjoint_witness :
    ∃ vs, validateAll [⟨"Monday", "10:00", "11:00", none⟩] = .ok vs ∧
      [⟨0, "Monday", "09:00", "10:00", true⟩, ⟨1, "Monday", "10:00", "11:00", true⟩] =
        [⟨0, "Monday", "09:00", "10:00", true⟩] ++ assignIds 1 vs ∧
      ∀ v ∈ vs, ∀ ex ∈ [(⟨0, "Monday", "09:00", "10:00", true⟩ : TimeSlot)],
        overlapsJS v ex = false :=
  addSlots_new_old_disjoint 1 [⟨0, "Monday", "09:00", "10:00", true⟩]
    [⟨0, "Monday", "09:00", "10:00", true⟩, ⟨1, "Monday", "10:00", "11:00", true⟩]
    [⟨"Monday", "10:00", "11:00", none⟩] (by rfl)

/-! ## C2 -/

/-- C2, counterexample: starting from the reachable one-slot collection
`[Monday 10:00-11:00]`, updating the slot's `endTime` to `10:15`
succeeds — `updateSlot` never re-checks the 30-minute minimum, so the
stored slot ends up 15 minutes long. -/
theorem slot_duration_invariant_cex :
    addTimeSlots 0 [] [⟨"Monday", "10:00", "11:00", none⟩] =
      .ok [⟨0, "Monday", "10:00", "11:00", true⟩] ∧
    updateTimeSlot [⟨0, "Monday", "10:00", "11:00", true⟩] 0 none (some "10:15") none =
      .ok [⟨0, "Monday", "10:00", "10:15", true⟩] ∧
    toMinutes "10:15" - toMinutes "10:00" = 15 :=
  ⟨rfl, rfl, rfl⟩

/-- C2 (amended): the duration minimum is enforced on creation — every
slot appended by a successful `addSlots` call is at least 30 minutes
long (with `startTime` before `endTime`) — but `updateSlot` does not
re-apply it. -/
theorem addSlots_new_duration_ok (nextId : Nat) (st st' : List TimeSlot)
    (slots : List SlotInput) (h : addTimeSlots nextId st slots = .ok st') :
    ∃ vs, validateAll slots = .ok vs ∧ st' = st ++ assignIds nextId vs ∧
      ∀ t ∈ assignIds nextId vs,
        toMinutes t.startTime < toMinutes t.endTime ∧
        30 ≤ toMinutes t.endTime - toMinutes t.startTime := by
  obtain ⟨vs, hval, hst, _⟩ := addSlots_new_old_disjoint nextId st st' slots h
  refine ⟨vs, hval, hst, ?_⟩
  intro t ht
  obtain ⟨v, hv, hday, hstart, hend, _⟩ := assignIds_mem nextId vs t ht
  obtain ⟨s, _, hok⟩ := validateAll_ok_mem hval v hv
  obtain ⟨_, hvs, hve, _, _, _, hlt, hdur⟩ := validateSlot_ok_props hok
  rw [hstart, hend, hvs, hve]
  exact ⟨hlt, hdur⟩

/-- Witness for the amended C2 theorem at a concrete accepted call. -/
theorem addSlots_new_duration_ok_witness :
    ∃ vs, validateAll [⟨"Monday", "10:00", "10:30", none⟩] = .ok vs ∧
      [⟨0, "Monday", "10:00", "10:30", true⟩] = [] ++ assignIds 0 vs ∧
      ∀ t ∈ assignIds 0 vs,
        toMinutes t.startTime < toMinutes t.endTime ∧
        30 ≤ toMinutes t.endTime - toMinutes t.startTime :=
  addSlots_new_duration_ok 0 [] [⟨0, "Monday", "10:00", "10:30", true⟩]
    [⟨"Monday", "10:00", "10:30", none⟩] (by rfl)

/-! ## C3 -/

/-- C3: a batch of two individually valid `Monday` slots whose intervals
overlap each other chronologically, neither of which overlaps the one
already-stored slot, is accepted whole — `addSlots` checks new slots
only against the stored collection, never against each other. -/
theorem addSlots_no_batch_internal_check :
    addTimeSlots 1 [⟨0, "Monday", "13:00", "14:00", true⟩]
        [⟨"Monday", "09:00", "10:00", none⟩, ⟨"Monday", "09:30", "10:30", none⟩] =
      .ok [⟨0, "Monday", "13:00", "14:00", true⟩,
           ⟨1, "Monday", "09:00", "10:00", true⟩,
           ⟨2, "Monday", "09:30", "10:30", true⟩] ∧
    chronOverlap "09:00" "10:00" "09:30" "10:30" ∧
    ¬ chronOverlap "09:00" "10:00" "13:00" "14:00" ∧
    ¬ chronOverlap "09:30" "10:30" "13:00" "14:00" :=
  ⟨rfl, by decide, by decide, by decide⟩

/-! ## C6 -/

/-- C6: with `Monday 09:00-10:00` stored, adding `Monday 09:30-10:30`
is rejected with the overlap error naming the stored slot, while adding
the adjacent `Monday 10:00-11:00` (start equal to the stored end)
succeeds. -/
theorem addSlots_overlap_vs_adjacent :
    addTimeSlots 0 [] [⟨"Monday", "09:00", "10:00", none⟩] =
      .ok [⟨0, "Monday", "09:00", "10:00", true⟩] ∧
    addTimeSlots 1 [⟨0, "Monday", "09:00", "10:00", true⟩]
        [⟨"Monday", "09:30", "10:30", none⟩] =
      .error "Slot overlaps with existing slot: Monday 09:00-10:00" ∧
    addTimeSlots 1 [⟨0, "Monday", "09:00", "10:00", true⟩]
        [⟨"Monday", "10:00", "11:00", none⟩] =
      .ok [⟨0, "Monday", "09:00", "10:00", true⟩, ⟨1, "Monday", "10:00", "11:00", true⟩] :=
  ⟨rfl, rfl, rfl⟩

/-! ## C10 -/

/-- C10: the time regex accepts the single-digit-hour string `9:30`;
`9:30` is chronologically earlier than `10:00` yet lexicographically
greater (`"10:00" < "9:30"` as JavaScript strings), and consequently,
with `Monday 09:00-10:00` stored, adding `Monday 9:30-10:30` slips past
the string-comparison overlap check and is stored even though the two
slots overlap chronologically. -/
theorem single_digit_hour_overlap_miss :
    timeRegexMatch "9:30" = true ∧
    toMinutes "9:30" < toMinutes "10:00" ∧
    jsLt "10:00" "9:30" = true ∧
    addTimeSlots 1 [⟨0, "Monday", "09:00", "10:00", true⟩]
        [⟨"Monday", "9:30", "10:30", none⟩] =
      .ok [⟨0, "Monday", "09:00", "10:00", true⟩, ⟨1, "Monday", "9:30", "10:30", true⟩] ∧
    chronOverlap "09:00" "10:00" "9:30" "10:30" :=
  ⟨rfl, by decide, rfl, rfl, by decide⟩

/-! ## C4 -/

/-- When the first batch slots clear the stored collection and one then
hits a stored slot, the `forEach` of lines 228-241 throws the overlap
error naming the first stored slot that the offending batch slot
`find`s. -/
theorem checkOverlaps_first_overlap : ∀ (vpre : List VSlot) (v : VSlot) (vrest : List VSlot)
    (st : List TimeSlot) (ex : TimeSlot),
    (∀ w ∈ vpre, st.find? (fun e2 => overlapsJS w e2) = none) →
    st.find? (fun e2 => overlapsJS v e2) = some ex →
    checkOverlaps (vpre ++ v :: vrest) st =
      some ("Slot overlaps with existing slot: " ++ ex.day ++ " "
            ++ ex.startTime ++ "-" ++ ex.endTime) := by
  intro vpre
  induction vpre with
  | nil =>
    intro v vrest st ex _ hfind
    rw [List.nil_append]
    unfold checkOverlaps
    rw [hfind]
  | cons w ws ih =>
    intro v vrest st ex hpre hfind
    simp only [List.cons_append]
    unfold checkOverlaps
    rw [hpre w (List.mem_cons_self ..)]
    exact ih v vrest st ex (fun x hx => hpre x (List.mem_cons_of_mem _ hx)) hfind

/-- C4: fail-fast in both arms, with no partial application.  (1) If
the batch is some accepted slots followed by a first invalid slot, the
handler returns exactly that slot's validation error and the stored
collection unchanged.  (2) If every batch slot validates but one —
every batch slot before it being overlap-free against the stored
collection — overlaps a stored slot, the handler returns the overlap
error naming the first stored slot it hits, and the stored collection
unchanged.  (3) On any error at all, the stored collection is exactly
the old one: the only write is the `save` on the success path. -/
theorem addSlots_failFast (nextId : Nat) (st : List TimeSlot) :
    (∀ (pre : List SlotInput) (bad : SlotInput) (rest : List SlotInput) (e : String),
       (∀ s ∈ pre, ∃ v, validateSlot s = .ok v) → validateSlot bad = .error e →
       addTimeSlotsHandler nextId st (pre ++ bad :: rest) = (st, .error e)) ∧
    (∀ (slots : List SlotInput) (vs vpre : List VSlot) (v : VSlot) (vrest : List VSlot)
       (ex : TimeSlot),
       validateAll slots = .ok vs → vs = vpre ++ v :: vrest →
       (∀ w ∈ vpre, st.find? (fun e2 => overlapsJS w e2) = none) →
       st.find? (fun e2 => overlapsJS v e2) = some ex →
       addTimeSlotsHandler nextId st slots =
         (st, .error ("Slot overlaps with existing slot: " ++ ex.day ++ " "
                      ++ ex.startTime ++ "-" ++ ex.endTime))) ∧
    (∀ (slots : List SlotInput) (e2 : String),
       addTimeSlots nextId st slots = .error e2 →
       addTimeSlotsHandler nextId st slots = (st, .error e2)) := by
  refine ⟨fun pre bad rest e hpre hbad => ?_,
          fun slots vs vpre v vrest ex hval hvs hpre hfind => ?_,
          fun slots e2 h => ?_⟩
  · have h1 : addTimeSlots nextId st (pre ++ bad :: rest) = .error e := by
      unfold addTimeSlots
      rw [if_neg (by simp)]
      rw [validateAll_append_error pre bad rest e hpre hbad]
    unfold addTimeSlotsHandler
    rw [h1]
  · have hco := checkOverlaps_first_overlap vpre v vrest st ex hpre hfind
    have hlen : ¬ slots.length = 0 := by
      intro h0
      rw [List.length_eq_zero] at h0
      subst h0
      injection hval with h
      rw [← h] at hvs
      simp at hvs
    have herr : addTimeSlots nextId st slots =
        .error ("Slot overlaps with existing slot: " ++ ex.day ++ " "
                ++ ex.startTime ++ "-" ++ ex.endTime) := by
      unfold addTimeSlots
      rw [if_neg hlen, hval]
      show (match checkOverlaps vs st with
        | some e => (Except.error e : Except String (List TimeSlot))
        | none => .ok (st ++ assignIds nextId vs)) = _
      rw [hvs, hco]
    unfold addTimeSlotsHandler
    rw [herr]
  · unfold addTimeSlotsHandler
    rw [h]

/-- Witness for the C4 theorem with `Monday 09:00-10:00` stored: a
15-minute batch slot aborts with the duration error, and a batch whose
first slot is overlap-free but whose second slot overlaps the stored
slot aborts with the overlap error naming it; the store is unchanged
both times. -/
theorem addSlots_failFast_witness :
    addTimeSlotsHandler 1 [⟨0, "Monday", "09:00", "10:00", true⟩]
        ([] ++ ⟨"Monday", "10:00", "10:15", none⟩ :: []) =
      ([⟨0, "Monday", "09:00", "10:00", true⟩], .error "Minimum slot duration is 30 minutes") ∧
    addTimeSlotsHandler 1 [⟨0, "Monday", "09:00", "10:00", true⟩]
        [⟨"Monday", "11:00", "12:00", none⟩, ⟨"Monday", "09:30", "10:30", none⟩] =
      ([⟨0, "Monday", "09:00", "10:00", true⟩],
       .error "Slot overlaps with existing slot: Monday 09:00-10:00") :=
  ⟨(addSlots_failFast 1 [⟨0, "Monday", "09:00", "10:00", true⟩]).1
      [] ⟨"Monday", "10:00", "10:15", none⟩ [] "Minimum slot duration is 30 minutes"
      (by intro s hs; cases hs) (by rfl),
   (addSlots_failFast 1 [⟨0, "Monday", "09:00", "10:00", true⟩]).2.1
      [⟨"Monday", "11:00", "12:00", none⟩, ⟨"Monday", "09:30", "10:30", none⟩]
      [⟨"Monday", "11:00", "12:00", true⟩, ⟨"Monday", "09:30", "10:30", true⟩]
      [⟨"Monday", "11:00", "12:00", true⟩] ⟨"Monday", "09:30", "10:30", true⟩ []
      ⟨0, "Monday", "09:00", "10:00", true⟩
      (by rfl) (by rfl)
      (by
        intro w hw
        rw [List.mem_singleton] at hw
        subst hw
        rfl)
      (by rfl)⟩

/-! ## C5 -/

/-- A string accepted by the time regex is non-empty (so not falsy). -/
theorem timeRegexMatch_ne_empty {t : String} (h : timeRegexMatch t = true) : t ≠ "" := by
  intro he
  subst he
  exact absurd h (by decide)

/-- A valid weekday name is non-empty (so not falsy). -/
theorem validDays_ne_empty {d : String} (h : d ∈ validDays) : d ≠ "" := by
  intro he
  subst he
  revert h
  decide

/-- For an input with a valid day and regex-valid times, the validation
callback accepts exactly when the start is chronologically before the
end and the duration is at least 30 minutes. -/
theorem validateSlot_ok_iff (s : SlotInput) (hd : s.day ∈ validDays)
    (h1 : timeRegexMatch s.startTime = true) (h2 : timeRegexMatch s.endTime = true) :
    (∃ v, validateSlot s = .ok v) ↔
      (toMinutes s.startTime < toMinutes s.endTime ∧
       30 ≤ toMinutes s.endTime - toMinutes s.startTime) := by
  constructor
  · rintro ⟨v, hv⟩
    obtain ⟨-, -, -, -, -, -, hlt, hdur⟩ := validateSlot_ok_props hv
    exact ⟨hlt, hdur⟩
  · rintro ⟨hlt, hdur⟩
    refine ⟨⟨s.day, s.startTime, s.endTime, s.isAvailable ≠ some false⟩, ?_⟩
    unfold validateSlot
    rw [if_neg (by
      simp [validDays_ne_empty hd, timeRegexMatch_ne_empty h1, timeRegexMatch_ne_empty h2])]
    rw [if_neg (not_not_intro hd)]
    rw [if_neg (not_not_intro ⟨h1, h2⟩)]
    rw [if_neg (by omega)]
    rw [if_neg (by omega)]

/-- C5: for an input slot with a valid day and regex-valid times,
`addSlots` of just that slot (into an empty collection, so no overlap
is possible) succeeds exactly when the start is before the end and the
duration is at least 30 minutes — in particular `start >= end` and
durations under 30 minutes are rejected and exactly 30 minutes is
accepted. -/
theorem addSlots_min_duration_rule (s : SlotInput) (hd : s.day ∈ validDays)
    (h1 : timeRegexMatch s.startTime = true) (h2 : timeRegexMatch s.endTime = true) :
    (addTimeSlots 0 [] [s]).isOk = true ↔
      (toMinutes s.startTime < toMinutes s.endTime ∧
       30 ≤ toMinutes s.endTime - toMinutes s.startTime) := by
  rw [← validateSlot_ok_iff s hd h1 h2]
  constructor
  · intro h
    cases hv : validateSlot s with
    | error e =>
      exfalso
      have he : addTimeSlots 0 [] [s] = .error e := by
        unfold addTimeSlots
        rw [if_neg (by simp)]
        have hval : validateAll [s] = .error e := by
          unfold validateAll
          rw [hv]
        rw [hval]
      rw [he] at h
      exact Bool.noConfusion h
    | ok v => exact ⟨v, rfl⟩
  · rintro ⟨v, hv⟩
    have hval : validateAll [s] = .ok [v] := by
      unfold validateAll
      rw [hv]
      rfl
    unfold addTimeSlots
    rw [if_neg (by simp), hval]
    rfl

/-- Witness for the C5 theorem: `10:00-10:30` (exactly 30 minutes) is
accepted, `10:00-10:15` is rejected. -/
theorem addSlots_min_duration_rule_witness :
    (addTimeSlots 0 [] [⟨"Monday", "10:00", "10:30", none⟩]).isOk = true ∧
    ¬ (addTimeSlots 0 [] [⟨"Monday", "10:00", "10:15", none⟩]).isOk = true :=
  ⟨(addSlots_min_duration_rule ⟨"Monday", "10:00", "10:30", none⟩
      (by decide) (by decide) (by decide)).mpr (by decide),
   fun h => by
     have hc := (addSlots_min_duration_rule ⟨"Monday", "10:00", "10:15", none⟩
       (by decide) (by decide) (by decide)).mp h
     exact absurd hc (by decide)⟩

/-! ## C8 -/

/-- C8: an update that provides only `isAvailable` succeeds for any
collection containing the slot id — no format, ordering, or overlap
check runs (there is no validity hypothesis at all) — and the new
collection is the old one with exactly that slot's `isAvailable`
replaced; its `day`, `startTime`, `endTime` and every other slot are
untouched. -/
theorem updateSlot_availability_only (st : List TimeSlot) (slotId : Nat) (b : Bool)
    (idx : Nat) (h : st.findIdx? (fun s => s.id == slotId) = some idx) :
    updateTimeSlot st slotId none none (some b) =
      .ok (st.set idx { st.getD idx default with isAvailable := b }) := by
  unfold updateTimeSlot
  rw [h]
  rfl

/-- Witness for the C8 theorem: the stored collection holds two
identical, mutually overlapping 5-minute `9:00-9:05` slots — invalid by
every creation rule — yet flipping `isAvailable` on the second slot
succeeds and changes nothing else. -/
theorem updateSlot_availability_only_witness :
    updateTimeSlot [⟨0, "Monday", "9:00", "9:05", true⟩, ⟨1, "Monday", "9:00", "9:05", true⟩]
        1 none none (some false) =
      .ok [⟨0, "Monday", "9:00", "9:05", true⟩, ⟨1, "Monday", "9:00", "9:05", false⟩] :=
  updateSlot_availability_only
    [⟨0, "Monday", "9:00", "9:05", true⟩, ⟨1, "Monday", "9:00", "9:05", true⟩]
    1 false 1 (by rfl)

/-! ## C9 -/

/-- Removing one present id from a collection with pairwise-distinct
ids shrinks it by exactly one. -/
theorem filter_out_id_length_mem : ∀ (st : List TimeSlot) (i : Nat),
    (st.map (fun s => s.id)).Nodup → i ∈ st.map (fun s => s.id) →
    (st.filter (fun s => !(s.id == i))).length = st.length - 1 := by
  intro st
  induction st with
  | nil => intro i _ hm; cases hm
  | cons a rest ih =>
    intro i hnd hm
    rw [List.map_cons, List.nodup_cons] at hnd
    rw [List.map_cons, List.mem_cons] at hm
    by_cases ha : a.id = i
    · have hrest : ∀ s ∈ rest, (!(s.id == i)) = true := by
        intro s hs
        have hne : s.id ≠ i := by
          intro he
          exact hnd.1 (by
            rw [ha]
            exact he ▸ List.mem_map_of_mem (fun t => t.id) hs)
        simp [hne]
      rw [List.filter_cons, if_neg (by simp [ha]), List.filter_eq_self.mpr hrest]
      simp
    · have hmem : i ∈ rest.map (fun s => s.id) := by
        rcases hm with hm | hm
        · exact absurd hm.symm ha
        · exact hm
      have hpos : 1 ≤ rest.length := by
        cases rest with
        | nil => cases hmem
        | cons _ _ => simp
      have hl : (a :: rest).length = rest.length + 1 := rfl
      rw [List.filter_cons, if_pos (by simp [ha]), List.length_cons,
        ih i hnd.2 hmem, hl]
      omega

/-- Removing an absent id changes nothing. -/
theorem filter_out_id_eq_self (st : List TimeSlot) (i : Nat)
    (h : i ∉ st.map (fun s => s.id)) :
    st.filter (fun s => !(s.id == i)) = st := by
  apply List.filter_eq_self.mpr
  intro a ha
  have hne : a.id ≠ i := by
    intro he
    exact h (he ▸ List.mem_map_of_mem (fun t => t.id) ha)
  simp [hne]

/-- C9: with pairwise-distinct slot ids, deleting a present id removes
exactly that slot and reports the previous count minus one, while
deleting an absent id returns the Not-Found error (leaving the handler's
stored collection unchanged, as no `save` runs on that path). -/
theorem deleteSlot_spec (st : List TimeSlot) (slotId : Nat)
    (hnodup : (st.map (fun s => s.id)).Nodup) :
    (slotId ∈ st.map (fun s => s.id) →
       deleteTimeSlot st slotId =
         .ok (st.filter (fun s => !(s.id == slotId)), st.length - 1)) ∧
    (slotId ∉ st.map (fun s => s.id) →
       deleteTimeSlot st slotId = .error "Time slot not found") := by
  constructor
  · intro hmem
    have hlen := filter_out_id_length_mem st slotId hnodup hmem
    have hpos : 1 ≤ st.length := by
      cases st with
      | nil => cases hmem
      | cons _ _ => simp
    simp only [deleteTimeSlot]
    rw [hlen, if_neg (by omega)]
  · intro hmem
    have heq := filter_out_id_eq_self st slotId hmem
    simp only [deleteTimeSlot]
    rw [heq, if_pos rfl]

/-- Witness for the C9 theorem: from a two-slot collection, deleting id
0 leaves the other slot with count 1; deleting the absent id 5 returns
Not-Found. -/
theorem deleteSlot_spec_witness :
    deleteTimeSlot [⟨0, "Monday", "09:00", "10:00", true⟩, ⟨1, "Tuesday", "09:00", "10:00", true⟩] 0 =
      .ok ([⟨1, "Tuesday", "09:00", "10:00", true⟩], 1) ∧
    deleteTimeSlot [⟨0, "Monday", "09:00", "10:00", true⟩, ⟨1, "Tuesday", "09:00", "10:00", true⟩] 5 =
      .error "Time slot not found" :=
  ⟨(deleteSlot_spec
      [⟨0, "Monday", "09:00", "10:00", true⟩, ⟨1, "Tuesday", "09:00", "10:00", true⟩] 0
      (by decide)).1 (by decide),
   (deleteSlot_spec
      [⟨0, "Monday", "09:00", "10:00", true⟩, ⟨1, "Tuesday", "09:00", "10:00", true⟩] 5
      (by decide)).2 (by decide)⟩

/-! ## C7 -/

/-- Inserting one slot into the day-keyed object only extends its own
day's array, at the end. -/
theorem groupLookup_pushSlot (acc : List (String × List TimeSlot)) (s : TimeSlot) (d : String) :
    groupLookup (pushSlot acc s) d =
      if s.day = d then groupLookup acc d ++ [s] else groupLookup acc d := by
  induction acc with
  | nil =>
    by_cases h : s.day = d
    · subst h
      simp [pushSlot, groupLookup]
    · simp [pushSlot, groupLookup, h]
  | cons p rest ih =>
    by_cases hp : p.1 = s.day
    · by_cases hd : s.day = d
      · subst hd
        simp [pushSlot, groupLookup, hp]
      · have hpd : ¬ p.1 = d := fun he => hd (hp ▸ he)
        simp [pushSlot, groupLookup, hp, hd, hpd]
    · by_cases hpd : p.1 = d
      · have hd : ¬ s.day = d := fun he => hp (hpd.trans he.symm)
        have hd2 : ¬ d = s.day := fun he => hd he.symm
        simp [pushSlot, groupLookup, hp, hd, hd2, hpd]
      · simp [pushSlot, groupLookup, hp, hpd, ih]

/-- Folding a slot list into the day-keyed object: each key's array is
whatever the accumulator had, followed by the slots of that day in
order. -/
theorem groupLookup_foldl : ∀ (l : List TimeSlot) (acc : List (String × List TimeSlot)) (d : String),
    groupLookup (l.foldl pushSlot acc) d =
      groupLookup acc d ++ l.filter (fun s => s.day == d) := by
  intro l
  induction l with
  | nil => intro acc d; simp
  | cons s rest ih =>
    intro acc d
    rw [List.foldl_cons, ih, groupLookup_pushSlot]
    by_cases h : s.day = d
    · rw [if_pos h, List.filter_cons, if_pos (by simp [h])]
      simp
    · rw [if_neg h, List.filter_cons, if_neg (by simp [h])]

/-- The grouped view of a slot list holds, under each day, exactly the
slots of that day in order. -/
theorem groupLookup_groupByDay (l : List TimeSlot) (d : String) :
    groupLookup (groupByDay l) d = l.filter (fun s => s.day == d) := by
  rw [groupByDay, groupLookup_foldl]
  rfl

/-- C7: the patient-facing query fails with the unavailability error
exactly when the approval grant is absent or the account inactive;
otherwise it returns the `isAvailable = true` subset of the doctor's
slots — the reported total is that subset's size and each day of the
grouping holds exactly that subset's slots of that day. -/
theorem availableSlots_query (d : DoctorDoc) :
    ((getAvailableSlotsForPatients d = .error "Doctor is not available for appointments") ↔
      (d.approvedBy = none ∨ d.userIsActive = false)) ∧
    (∀ g n, getAvailableSlotsForPatients d = .ok (g, n) →
       n = (d.availableSlots.filter (fun s => s.isAvailable)).length ∧
       ∀ day, groupLookup g day =
         (d.availableSlots.filter (fun s => s.isAvailable)).filter (fun s => s.day == day)) := by
  by_cases hc : ¬ d.approvedBy.isSome ∨ ¬ d.userIsActive
  · have herr : getAvailableSlotsForPatients d =
        .error "Doctor is not available for appointments" := by
      unfold getAvailableSlotsForPatients
      rw [if_pos hc]
    refine ⟨⟨fun _ => ?_, fun _ => herr⟩, fun g n hok => ?_⟩
    · rcases hc with h | h
      · exact Or.inl (Option.not_isSome_iff_eq_none.mp h)
      · exact Or.inr (Bool.eq_false_iff.mpr h)
    · rw [herr] at hok
      exact Except.noConfusion hok
  · have hok : getAvailableSlotsForPatients d =
        .ok (groupByDay (d.availableSlots.filter (fun s => s.isAvailable)),
             (d.availableSlots.filter (fun s => s.isAvailable)).length) := by
      unfold getAvailableSlotsForPatients
      rw [if_neg hc]
    refine ⟨⟨fun he => ?_, fun habs => ?_⟩, fun g n hgn => ?_⟩
    · rw [hok] at he
      exact Except.noConfusion he
    · rcases habs with h | h
      · exact absurd (Or.inl (by rw [h]; simp)) hc
      · exact absurd (Or.inr (by rw [h]; simp)) hc
    · rw [hok] at hgn
      injection hgn with hgn
      rw [Prod.mk.injEq] at hgn
      obtain ⟨hg, hn⟩ := hgn
      subst hg
      subst hn
      exact ⟨rfl, fun day => groupLookup_groupByDay _ day⟩

/-- Witness for the C7 theorem at a concrete approved, active doctor
with one available and one blocked slot. -/
theorem availableSlots_query_witness :
    1 = (([⟨0, "Monday", "09:00", "10:00", true⟩, ⟨1, "Monday", "13:00", "14:00", false⟩] :
            List TimeSlot).filter (fun s => s.isAvailable)).length ∧
    ∀ day, groupLookup [("Monday", [⟨0, "Monday", "09:00", "10:00", true⟩])] day =
      (([⟨0, "Monday", "09:00", "10:00", true⟩, ⟨1, "Monday", "13:00", "14:00", false⟩] :
          List TimeSlot).filter (fun s => s.isAvailable)).filter (fun s => s.day == day) :=
  (availableSlots_query
      ⟨some 1, true, [⟨0, "Monday", "09:00", "10:00", true⟩, ⟨1, "Monday", "13:00", "14:00", false⟩]⟩).2
    [("Monday", [⟨0, "Monday", "09:00", "10:00", true⟩])] 1 (by rfl)
